import Mathlib

/-!
Verification of the journaled trie overlay of the `fluentbase` runtime
(`crates/runtime/src/journal.rs`), together with its Poseidon-based
storage-key derivation.  The Rust code is shallowly embedded: the
`JournaledTrie` struct becomes a Lean structure, `&mut self` methods become
state-passing functions, the `HashMap` state index becomes a function
`Bytes32 → Option Nat`, and the generic `DB : TrieStorage` parameter becomes
a record of operations over an abstract state type `DB`.
-/

namespace FluentJournal

/-- A byte (`u8`). -/
abbrev Byte := Fin 256

/-- A 32-byte word (`[u8; 32]`). -/
abbrev Bytes32 := Mathlib.Vector Byte 32

/-- A 20-byte account address (`Address`). -/
abbrev Address20 := Mathlib.Vector Byte 20

/-- Opaque error payload of `fluentbase_types::ExitCode` (an `i32`-repr enum
not under the analysed sources; the overlay only transports it). -/
abbrev ExitCode := Int

/-- The BN254 scalar-field modulus (order of `halo2curves::bn256::Fr`). -/
def bn254Modulus : Nat :=
  21888242871839275222246405745257275088548364400416034343698204186575808495617

/-- The BN254 scalar field `Fr`. -/
abbrev Fr := ZMod bn254Modulus

/-- Modelled from the spec: the Poseidon hasher (`Fr::hasher().hash`) is an
external collaborator, "a pure function taking two BN254 scalars and a domain
separator, returning a BN254 scalar".  It stays abstract: every theorem about
key derivation is quantified over it. -/
abbrev PoseidonHash := Fr → Fr → Fr → Fr

/-- Little-endian value of a byte string (`Fr::from_bytes` interprets its
input little-endian). -/
def leValList : List Byte → Nat
  | [] => 0
  | b :: rest => b.val + 256 * leValList rest

/-- `Fr::from_bytes`: little-endian interpretation, `none` when the value is
not a canonical field element (the Rust `CtOption` is empty). -/
def frFromBytes (l : List Byte) : Option Fr :=
  if leValList l < bn254Modulus then some ((leValList l : Fr)) else none

/-- `Fr::to_bytes`: 32-byte little-endian encoding of a field element. -/
def frToBytes (x : Fr) : Bytes32 :=
  ⟨(List.range 32).map (fun i => (⟨x.val / 256 ^ i % 256, Nat.mod_lt _ (by decide)⟩ : Byte)),
    by simp⟩

/-- `JournaledTrie::DOMAIN`: the Poseidon domain separator, `Fr::zero()`. -/
def DOMAIN : Fr := 0

/-- `JournaledTrie::compress_value`: split a 32-byte word into two halves,
place each in the low 16 bytes of a zeroed 32-byte buffer, read both as field
elements (the source `unwrap`s the `CtOption`; here `Option.getD 0`, shown
total below), and hash the pair with Poseidon under `DOMAIN`. -/
def compress_value (p : PoseidonHash) (val : Bytes32) : Fr :=
  let val1 := (frFromBytes (val.toList.take 16 ++ List.replicate 16 (0 : Byte))).getD 0
  let val2 := (frFromBytes (val.toList.drop 16 ++ List.replicate 16 (0 : Byte))).getD 0
  p val1 val2 DOMAIN

/-- `JournaledTrie::storage_key`: place the 20-byte address in the low bytes
of a zeroed 32-byte buffer, read it as a field element, and hash it with the
compressed slot under `DOMAIN`; the key is the little-endian encoding. -/
def storage_key (p : PoseidonHash) (address : Address20) (slot : Bytes32) : Bytes32 :=
  let addr := (frFromBytes (address.toList ++ List.replicate 12 (0 : Byte))).getD 0
  let slotFr := compress_value p slot
  frToBytes (p addr slotFr DOMAIN)

/-- The spec's slot compression, following its words (section 4.C, step 1):
"form two 32-byte buffers by copying bytes 0..16 and 16..32 of `S` into the
low half, zeroing the rest; interpret each as a BN254 scalar; hash the pair
with Poseidon under domain 0". -/
def spec_slot_compression (p : PoseidonHash) (S : Bytes32) : Fr :=
  let s0 : Fr := (leValList (S.toList.take 16 ++ List.replicate 16 (0 : Byte)) : Fr)
  let s1 : Fr := (leValList (S.toList.drop 16 ++ List.replicate 16 (0 : Byte)) : Fr)
  p s0 s1 0

/-- The spec's storage-key derivation, following its words (section 4.C,
steps 2 and 3): promote the address into a field element from a zeroed
32-byte buffer holding it in the low 20 bytes, and take the 32-byte
little-endian encoding of `Poseidon(A*, S*; domain=0)`. -/
def spec_storage_key (p : PoseidonHash) (A : Address20) (S : Bytes32) : Bytes32 :=
  let aStar : Fr := (leValList (A.toList ++ List.replicate 12 (0 : Byte)) : Fr)
  frToBytes (p aStar (spec_slot_compression p S) 0)

/-- `JournalEvent`: one per-key change record of the journal. -/
inductive JournalEvent where
  | itemChanged (key : Bytes32) (value : List Bytes32) (flags : Nat) (prevState : Option Nat)
  | itemRemoved (key : Bytes32) (prevState : Option Nat)
deriving DecidableEq

/-- `JournalEvent::key`. -/
def JournalEvent.key : JournalEvent → Bytes32
  | .itemChanged k _ _ _ => k
  | .itemRemoved k _ => k

/-- `JournalEvent::value`: the value and flags of a `Changed` event, `none`
for a `Removed` event. -/
def JournalEvent.value : JournalEvent → Option (List Bytes32 × Nat)
  | .itemChanged _ v f _ => some (v, f)
  | .itemRemoved _ _ => none

/-- `JournalEvent::prev_state`. -/
def JournalEvent.prev_state : JournalEvent → Option Nat
  | .itemChanged _ _ _ p => p
  | .itemRemoved _ p => p

/-- `JournalLog`: one emitted log record. -/
structure JournalLog where
  address : Address20
  topics : List Bytes32
  data : List Byte
deriving DecidableEq

/-- Modelled from the spec: the `TrieStorage` trait (spec section 4.A) is
declared outside the analysed sources; the overlay needs only
`get / update / remove / compute_root`, with `update` and `remove` fallible.
`&mut self` methods are state-passing over the abstract trie state `DB`. -/
structure TrieStorage (DB : Type) where
  get : DB → Bytes32 → Option (List Bytes32)
  update : DB → Bytes32 → Nat → List Bytes32 → Except ExitCode DB
  remove : DB → Bytes32 → Except ExitCode DB
  compute_root : DB → Bytes32

/-- `JournaledTrie`: the overlay state.  The `HashMap<[u8;32], usize>` state
index is a function to `Option Nat`; `root` caches the last computed root. -/
structure JournaledTrie (DB : Type) where
  storage : DB
  state : Bytes32 → Option Nat
  logs : List JournalLog
  journal : List JournalEvent
  root : Bytes32
  committed : Nat

variable {DB : Type}

/-- `JournaledTrie::new`. -/
def JournaledTrie.new (TS : TrieStorage DB) (storage : DB) : JournaledTrie DB :=
  { storage := storage
    state := fun _ => none
    logs := []
    journal := []
    root := TS.compute_root storage
    committed := 0 }

/-- `JournaledTrie::checkpoint`: the source builds
`JournalCheckpoint(self.journal.len() as u32, 0)` — the first component is
the journal length truncated to `u32`, the second is the literal `0`. -/
def JournaledTrie.checkpoint (s : JournaledTrie DB) : Nat × Nat :=
  (s.journal.length % 2 ^ 32, 0)

/-- `JournaledTrie::get` (`&self`): consult the state index first; a hit
reads the referenced journal event (the source `unwrap`s the lookup, which
cannot fail under invariant J1; the unreachable branch is mapped to `none`),
a miss delegates to the trie with `is_cold = true`. -/
def JournaledTrie.get (TS : TrieStorage DB) (s : JournaledTrie DB) (key : Bytes32) :
    Option (List Bytes32 × Bool) :=
  match s.state key with
  | some index =>
    match s.journal[index]? with
    | some ev => ev.value.map (fun vf => (vf.1, false))
    | none => none
  | none => (TS.get s.storage key).map (fun v => (v, true))

/-- `JournaledTrie::get` as a state transition: the Rust receiver is `&self`,
so the overlay state is returned unchanged next to the result. -/
def JournaledTrie.get_step (TS : TrieStorage DB) (s : JournaledTrie DB) (key : Bytes32) :
    JournaledTrie DB × Option (List Bytes32 × Bool) :=
  (s, s.get TS key)

/-- `JournaledTrie::update`: append an `ItemChanged` event recording the
previous index for the key, then point the state index at it. -/
def JournaledTrie.update (s : JournaledTrie DB) (key : Bytes32) (value : List Bytes32)
    (flags : Nat) : JournaledTrie DB :=
  let pos := s.journal.length
  { s with
    journal := s.journal ++ [.itemChanged key value flags (s.state key)]
    state := fun k => if k = key then some pos else s.state k }

/-- `JournaledTrie::remove`: append an `ItemRemoved` event recording the
previous index for the key, then point the state index at it. -/
def JournaledTrie.remove (s : JournaledTrie DB) (key : Bytes32) : JournaledTrie DB :=
  let pos := s.journal.length
  { s with
    journal := s.journal ++ [.itemRemoved key (s.state key)]
    state := fun k => if k = key then some pos else s.state k }

/-- `JournaledTrie::store`: derive the storage key and `update` with a
singleton value and `flags = 1`. -/
def JournaledTrie.store (p : PoseidonHash) (s : JournaledTrie DB) (address : Address20)
    (slot : Bytes32) (value : Bytes32) : JournaledTrie DB :=
  s.update (storage_key p address slot) [value] 1

/-- `JournaledTrie::load`: derive the storage key, `get`, and assert the
value is a singleton.  Outer `none` is the `assert_eq!` panic; `some none`
is a read miss. -/
def JournaledTrie.load (p : PoseidonHash) (TS : TrieStorage DB) (s : JournaledTrie DB)
    (address : Address20) (slot : Bytes32) : Option (Option (Bytes32 × Bool)) :=
  match s.get TS (storage_key p address slot) with
  | none => some none
  | some (values, is_cold) =>
    match values with
    | [w] => some (some (w, is_cold))
    | _ => none

/-- `JournaledTrie::compute_root`. -/
def JournaledTrie.compute_root (TS : TrieStorage DB) (s : JournaledTrie DB) : Bytes32 :=
  TS.compute_root s.storage

/-- `JournaledTrie::emit_log`: append to the logs buffer (the journal is not
touched). -/
def JournaledTrie.emit_log (s : JournaledTrie DB) (address : Address20)
    (topics : List Bytes32) (data : List Byte) : JournaledTrie DB :=
  { s with logs := s.logs ++ [{ address := address, topics := topics, data := data }] }

/-- The commit loop's `collect::<HashMap<_,_>>()`: coalesce the uncommitted
events per key, keeping the last event for each key (later `HashMap` inserts
overwrite earlier ones).  The `HashMap` iteration order is unspecified in the
source; this realisation emits entries in order of each key's last event, and
every property proved about it is order-independent. -/
def coalesce : List JournalEvent → List (Bytes32 × Option (List Bytes32 × Nat))
  | [] => []
  | e :: rest =>
    let tail := coalesce rest
    if tail.any (fun pr => decide (pr.1 = e.key)) then tail
    else (e.key, e.value) :: tail

/-- One iteration of the commit flush loop: `Changed` entries call
`storage.update`, `Removed` entries call `storage.remove`. -/
def applyEntry (TS : TrieStorage DB) (db : DB) (e : Bytes32 × Option (List Bytes32 × Nat)) :
    Except ExitCode DB :=
  match e.2 with
  | some (v, f) => TS.update db e.1 f v
  | none => TS.remove db e.1

/-- The commit flush loop with the `?` operator: stop at the first trie
error, returning the storage as flushed so far and the error. -/
def applyEntries (TS : TrieStorage DB) :
    List (Bytes32 × Option (List Bytes32 × Nat)) → DB → DB × Option ExitCode
  | [], db => (db, none)
  | e :: rest, db =>
    match applyEntry TS db e with
    | .ok db1 => applyEntries TS rest db1
    | .error c => (db, some c)

/-- `JournaledTrie::commit`: `none` is the `panic!("nothing to commit")`;
otherwise flush the coalesced uncommitted events.  A trie error is returned
unchanged with the overlay as the `?` operator leaves it (storage partially
flushed, everything else untouched); on success the journal, state index and
logs are cleared, `committed` is reset to `0`, and the recomputed root is
returned with the drained logs. -/
def JournaledTrie.commit (TS : TrieStorage DB) (s : JournaledTrie DB) :
    Option (JournaledTrie DB × Except ExitCode (Bytes32 × List JournalLog)) :=
  if s.journal.length ≤ s.committed then none
  else
    match applyEntries TS (coalesce (s.journal.drop s.committed)) s.storage with
    | (db1, some c) => some ({ s with storage := db1 }, .error c)
    | (db1, none) =>
      let newRoot := TS.compute_root db1
      some
        ({ storage := db1
           state := fun _ => none
           logs := []
           journal := []
           root := newRoot
           committed := 0 },
          .ok (newRoot, s.logs))

/-- `JournaledTrie::rollback`: `none` is the
`panic!("reverting already committed changes is not allowed")`; otherwise
walk the journal in reverse over the events past the checkpoint, restoring
each key's state-index entry to the event's `prev_state`, then truncate the
journal and the logs to the checkpoint's two lengths.  (`Nat` subtraction
truncates at zero like the well-defined cases of the `usize` subtraction.) -/
def JournaledTrie.rollback (s : JournaledTrie DB) (checkpoint : Nat × Nat) :
    Option (JournaledTrie DB) :=
  if checkpoint.1 < s.committed then none
  else
    let undone := s.journal.reverse.take (s.journal.length - checkpoint.1)
    let state1 := undone.foldl
      (fun st ev =>
        match ev.prev_state with
        | some p => fun k => if k = ev.key then some p else st k
        | none => fun k => if k = ev.key then none else st k)
      s.state
    some
      { s with
        state := state1
        journal := s.journal.take checkpoint.1
        logs := s.logs.take checkpoint.2 }

/-- The canonical model of the `TrieStorage` contract (spec sections 4.A and
6: a key-value store whose `update` / `remove` never fail and whose root
depends only on its contents): a finite map from keys to value-and-flags.
It plays the role of the `InMemoryAccountDb`-backed store of the tests. -/
abbrev MapDB := Bytes32 → Option (List Bytes32 × Nat)

/-- All-zero 32-byte word. -/
def zero32 : Bytes32 := Mathlib.Vector.replicate 32 (0 : Byte)

/-- All-one 32-byte word. -/
def one32 : Bytes32 := Mathlib.Vector.replicate 32 (1 : Byte)

/-- All-two 32-byte word. -/
def two32 : Bytes32 := Mathlib.Vector.replicate 32 (2 : Byte)

/-- All-zero 20-byte address. -/
def addrZero : Address20 := Mathlib.Vector.replicate 20 (0 : Byte)

/-- The map-model trie storage. -/
def mapTrie : TrieStorage MapDB where
  get := fun db k => (db k).map (fun vf => vf.1)
  update := fun db k f v => .ok (fun k2 => if k2 = k then some (v, f) else db k2)
  remove := fun db k => .ok (fun k2 => if k2 = k then none else db k2)
  compute_root := fun _ => zero32

/-- A trie storage whose `update` and `remove` always fail, to exercise the
error path of `commit` (spec section 7, trie errors). -/
def failTrie : TrieStorage Unit where
  get := fun _ _ => none
  update := fun _ _ _ _ => .error 7
  remove := fun _ _ => .error 7
  compute_root := fun _ => zero32

/-- The empty map. -/
def emptyDB : MapDB := fun _ => none

/-- An arbitrary Poseidon instantiation for concrete evaluations. -/
def poseidonZero : PoseidonHash := fun _ _ _ => 0

/-- A fresh overlay over the empty map. -/
def emptyOverlay : JournaledTrie MapDB := JournaledTrie.new mapTrie emptyDB

/-- A map holding one entry at `zero32`. -/
def coldDB : MapDB := fun k => if k = zero32 then some ([one32], 1) else none

/-- A fresh overlay over `coldDB`: `zero32` lives only in the trie. -/
def coldOverlay : JournaledTrie MapDB := JournaledTrie.new mapTrie coldDB

/-- The overlay state after a first read of `zero32` (the read's state
transition, which is the identity since `get` takes `&self`). -/
def coldOverlayTouched : JournaledTrie MapDB := (coldOverlay.get_step mapTrie zero32).1

/-- Overlay with one emitted log and clean journal (fixture for the
checkpoint log-length analysis). -/
def logOverlayA : JournaledTrie MapDB :=
  (JournaledTrie.new mapTrie emptyDB).emit_log addrZero [] []

/-- Overlay with one emitted log and clean journal (fixture for the
rollback log-truncation analysis). -/
def logOverlayB : JournaledTrie MapDB :=
  (JournaledTrie.new mapTrie emptyDB).emit_log addrZero [] []

/-- `logOverlayB` after one key update (the work a checkpoint brackets). -/
def logOverlayBDirty : JournaledTrie MapDB := logOverlayB.update zero32 [one32] 1

/-- Two updates to the same key, to exercise last-write-wins coalescing. -/
def twiceWritten : JournaledTrie MapDB :=
  (emptyOverlay.update zero32 [one32] 1).update zero32 [two32] 2

/-- One pending update over the always-failing trie, to exercise the commit
error path. -/
def failOverlay : JournaledTrie Unit :=
  (JournaledTrie.new failTrie ()).update zero32 [one32] 1

/-- The last journal event for a key, searching from the most recent end:
the entry the commit coalescer retains for that key. -/
def lastEventFor : List JournalEvent → Bytes32 → Option JournalEvent
  | [], _ => none
  | e :: rest, k =>
    match lastEventFor rest k with
    | some e1 => some e1
    | none => if e.key = k then some e else none

/-- The commit flush loop specialised to the map model, where no step can
fail: each entry overwrites its key. -/
def applyEntriesPure (l : List (Bytes32 × Option (List Bytes32 × Nat))) (db : MapDB) : MapDB :=
  l.foldl (fun db1 e => fun k => if k = e.1 then e.2 else db1 k) db

/-- States reachable through the overlay's interface: construction plus the
`&mut self` operations (`get` / `load` / `checkpoint` / `compute_root` do
not change the overlay).  `commit` covers both its error and success
outcomes; `rollback` is admitted for every non-panicking checkpoint
argument, an over-approximation of the checkpoints a caller can hold. -/
inductive Reachable (TS : TrieStorage DB) (p : PoseidonHash) : JournaledTrie DB → Prop where
  | new (db : DB) : Reachable TS p (JournaledTrie.new TS db)
  | update {s : JournaledTrie DB} (key : Bytes32) (value : List Bytes32) (flags : Nat) :
      Reachable TS p s → Reachable TS p (s.update key value flags)
  | remove {s : JournaledTrie DB} (key : Bytes32) :
      Reachable TS p s → Reachable TS p (s.remove key)
  | store {s : JournaledTrie DB} (address : Address20) (slot value : Bytes32) :
      Reachable TS p s → Reachable TS p (JournaledTrie.store p s address slot value)
  | emit_log {s : JournaledTrie DB} (address : Address20) (topics : List Bytes32)
      (data : List Byte) : Reachable TS p s → Reachable TS p (s.emit_log address topics data)
  | commit {s s1 : JournaledTrie DB} {r : Except ExitCode (Bytes32 × List JournalLog)} :
      Reachable TS p s → s.commit TS = some (s1, r) → Reachable TS p s1
  | rollback {s s1 : JournaledTrie DB} (cp : Nat × Nat) :
      Reachable TS p s → s.rollback cp = some s1 → Reachable TS p s1

/-- Unfolding lemma: `get` when the state index holds the key. -/
theorem JournaledTrie.get_state_some {TS : TrieStorage DB} {s : JournaledTrie DB}
    {key : Bytes32} {i : Nat} (h : s.state key = some i) :
    s.get TS key =
      match s.journal[i]? with
      | some ev => ev.value.map (fun vf => (vf.1, false))
      | none => none := by
  unfold JournaledTrie.get
  rw [h]

/-- Unfolding lemma: `get` when the state index misses the key. -/
theorem JournaledTrie.get_state_none {TS : TrieStorage DB} {s : JournaledTrie DB}
    {key : Bytes32} (h : s.state key = none) :
    s.get TS key = (TS.get s.storage key).map (fun v => (v, true)) := by
  unfold JournaledTrie.get
  rw [h]

/-- Claim C10: `get` never mutates any state — after `get(key)` the journal,
state index, logs buffer, cached root, committed watermark and underlying
trie are all unchanged; in particular a read served from the trie does not
enter the key into the state index.  (The Rust receiver is `&self`; the
embedded state transition `get_step` is the identity on the overlay.) -/
theorem get_mutates_nothing (TS : TrieStorage DB) (s : JournaledTrie DB) (key : Bytes32) :
    (s.get_step TS key).1.journal = s.journal ∧
    (s.get_step TS key).1.state = s.state ∧
    (s.get_step TS key).1.logs = s.logs ∧
    (s.get_step TS key).1.root = s.root ∧
    (s.get_step TS key).1.committed = s.committed ∧
    (s.get_step TS key).1.storage = s.storage ∧
    (s.get_step TS key).1.state key = s.state key :=
  ⟨rfl, rfl, rfl, rfl, rfl, rfl, rfl⟩

/-- Claim C4, evaluated at the failing input: with one emitted log, the
source's `checkpoint` returns `(journal.len(), 0)` — the logs component is
the literal `0`, not the logs-buffer length `1` the claim states. -/
theorem checkpoint_logs_component_is_zero :
    logOverlayA.logs.length = 1 ∧ logOverlayA.checkpoint = (0, 0) := by
  constructor
  · rfl
  · rfl

/-- Claim C2, evaluated at the failing input: capture a checkpoint while one
log is buffered, update a key, and roll back — the logs buffer comes back
empty instead of holding the captured log, because the checkpoint stored `0`
as its log length. -/
theorem rollback_erases_pre_checkpoint_logs :
    logOverlayB.logs.length = 1 ∧
    (logOverlayBDirty.rollback logOverlayB.checkpoint).map (fun s => s.logs) = some [] := by
  constructor
  · rfl
  · rfl

/-- Claim C8 counterexample: from the Empty state (journal and logs empty,
`committed = 0`), `emit_log` leaves the journal empty, so it does not move
the overlay to Dirty (journal non-empty) as the claim states. -/
theorem emit_log_not_dirty :
    emptyOverlay.journal = [] ∧ emptyOverlay.logs = [] ∧ emptyOverlay.committed = 0 ∧
    (emptyOverlay.emit_log addrZero [] []).journal = [] :=
  ⟨rfl, rfl, rfl, rfl⟩

/-- Claim C8 (amended): from the Empty state, `update`, `remove` and `store`
move the overlay to Dirty (journal non-empty); `emit_log` grows only the
logs buffer and leaves the journal empty, so the overlay does not become
Dirty (it is then neither Empty nor Dirty as defined). -/
theorem empty_state_transitions (s : JournaledTrie DB)
    (h : s.journal = [] ∧ s.logs = [] ∧ s.committed = 0) :
    (∀ k v f, (s.update k v f).journal ≠ []) ∧
    (∀ k, (s.remove k).journal ≠ []) ∧
    (∀ p a sl v, (JournaledTrie.store p s a sl v).journal ≠ []) ∧
    (∀ a t d, (s.emit_log a t d).journal = [] ∧ (s.emit_log a t d).logs ≠ []) := by
  obtain ⟨h1, h2, h3⟩ := h
  refine ⟨?_, ?_, ?_, ?_⟩ <;> intros <;>
    simp [JournaledTrie.update, JournaledTrie.remove, JournaledTrie.store,
      JournaledTrie.emit_log, h1, h2]

/-- Witness for `empty_state_transitions` at the concrete empty overlay. -/
theorem empty_state_transitions_witness :
    (emptyOverlay.update zero32 [one32] 1).journal ≠ [] ∧
    (emptyOverlay.emit_log addrZero [] []).journal = [] :=
  ⟨(empty_state_transitions emptyOverlay ⟨rfl, rfl, rfl⟩).1 zero32 [one32] 1,
   ((empty_state_transitions emptyOverlay ⟨rfl, rfl, rfl⟩).2.2.2 addrZero [] []).1⟩

/-- Claim C3: `get(key)` returns the referenced journal event's value with
`is_cold = false` when the state index holds the key (and `none` for a
`Removed` event, never consulting the trie); otherwise it delegates to the
trie, pairing a hit with `is_cold = true` and propagating a miss. -/
theorem get_case_analysis (TS : TrieStorage DB) (s : JournaledTrie DB) (key : Bytes32) :
    (∀ i ev, s.state key = some i → s.journal[i]? = some ev →
      s.get TS key = ev.value.map (fun vf => (vf.1, false))) ∧
    (∀ i k2 pr, s.state key = some i → s.journal[i]? = some (.itemRemoved k2 pr) →
      s.get TS key = none) ∧
    (s.state key = none → s.get TS key = (TS.get s.storage key).map (fun v => (v, true))) := by
  refine ⟨?_, ?_, ?_⟩
  · intro i ev h1 h2
    simp [JournaledTrie.get, h1, h2]
  · intro i k2 pr h1 h2
    simp [JournaledTrie.get, h1, h2, JournalEvent.value]
  · intro h1
    simp [JournaledTrie.get, h1]

/-- Witness for `get_case_analysis`: an updated key is served from the
journal warm; an untouched key misses through the empty trie. -/
theorem get_case_analysis_witness :
    ((emptyOverlay.update zero32 [one32] 5).get mapTrie zero32 = some ([one32], false)) ∧
    ((emptyOverlay.update zero32 [one32] 5).get mapTrie one32 = none) :=
  ⟨((get_case_analysis mapTrie (emptyOverlay.update zero32 [one32] 5) zero32).1 0
      (.itemChanged zero32 [one32] 5 none) (by decide) rfl).trans rfl,
   ((get_case_analysis mapTrie (emptyOverlay.update zero32 [one32] 5) one32).2.2
      (by decide)).trans rfl⟩

/-- Claim C6 counterexample: for a key living only in the trie, the second
touch (a repeated `get` after a first `get`, whose state transition is the
identity) still reports `is_cold = true`, not `false` as the claim states
for subsequent touches. -/
theorem repeated_read_stays_cold :
    (coldOverlay.get_step mapTrie zero32).2 = some ([one32], true) ∧
    coldOverlayTouched.get mapTrie zero32 = some ([one32], true) := by
  constructor
  · decide
  · decide

/-- Claim C6 (amended): `is_cold` marks reads served from the underlying
trie: for every successful `get`, `is_cold = true` exactly when the key is
absent from the state index — so repeated reads of a never-written key stay
cold — and a key becomes warm exactly by being written (`update`, and hence
`store`): immediately after `update` the key reads warm, until commit clears
the index. -/
theorem cold_iff_not_in_overlay (TS : TrieStorage DB) :
    (∀ (s : JournaledTrie DB) key v b, s.get TS key = some (v, b) →
      (b = true ↔ s.state key = none)) ∧
    (∀ (s : JournaledTrie DB) key v f, (s.update key v f).get TS key = some (v, false)) := by
  constructor
  · intro s key v b h
    cases hstate : s.state key with
    | none =>
      rw [JournaledTrie.get_state_none hstate] at h
      cases hg : TS.get s.storage key with
      | none => rw [hg] at h; simp at h
      | some w =>
        rw [hg] at h
        simp only [Option.map_some', Option.some.injEq, Prod.mk.injEq] at h
        rw [← h.2]
        simp
    | some i =>
      rw [JournaledTrie.get_state_some hstate] at h
      cases hj : s.journal[i]? with
      | none => rw [hj] at h; simp at h
      | some ev =>
        rw [hj] at h
        simp only [] at h
        cases hv : ev.value with
        | none => rw [hv] at h; simp at h
        | some vf =>
          rw [hv] at h
          simp only [Option.map_some', Option.some.injEq, Prod.mk.injEq] at h
          rw [← h.2]
          simp
  · intro s key v f
    have hstate : (s.update key v f).state key = some s.journal.length := by
      simp [JournaledTrie.update]
    have hj : (s.update key v f).journal[s.journal.length]? =
        some (.itemChanged key v f (s.state key)) := by
      simp [JournaledTrie.update]
    rw [JournaledTrie.get_state_some hstate, hj]
    simp [JournalEvent.value]

/-- Witness for `cold_iff_not_in_overlay`: the trie-resident key reads cold
on the fresh overlay; after an update the same key reads warm. -/
theorem cold_iff_not_in_overlay_witness :
    (true = true ↔ coldOverlay.state zero32 = none) ∧
    ((coldOverlay.update zero32 [one32] 1).get mapTrie zero32 = some ([one32], false)) :=
  ⟨(cold_iff_not_in_overlay mapTrie).1 coldOverlay zero32 [one32] true (by decide),
   (cold_iff_not_in_overlay mapTrie).2 coldOverlay zero32 [one32] 1⟩

/-- On the map model, one flush step never fails and overwrites its key. -/
theorem applyEntry_mapTrie (db : MapDB) (e : Bytes32 × Option (List Bytes32 × Nat)) :
    applyEntry mapTrie db e = .ok (fun k => if k = e.1 then e.2 else db k) := by
  rcases e with ⟨k0, v0⟩
  cases v0 with
  | none => rfl
  | some vf => rcases vf with ⟨v, f⟩; rfl

/-- Unfolding lemma for the pure flush. -/
theorem applyEntriesPure_cons (e : Bytes32 × Option (List Bytes32 × Nat))
    (l : List (Bytes32 × Option (List Bytes32 × Nat))) (db : MapDB) :
    applyEntriesPure (e :: l) db =
      applyEntriesPure l (fun k => if k = e.1 then e.2 else db k) := rfl

/-- On the map model, the fallible flush loop never fails and agrees with
the pure flush. -/
theorem applyEntries_mapTrie (l : List (Bytes32 × Option (List Bytes32 × Nat))) (db : MapDB) :
    applyEntries mapTrie l db = (applyEntriesPure l db, none) := by
  induction l generalizing db with
  | nil => rfl
  | cons e rest ih =>
    simp only [applyEntries, applyEntry_mapTrie, applyEntriesPure_cons]
    exact ih _

/-- The coalesced entries cover exactly the keys of the input events. -/
theorem coalesce_any (evs : List JournalEvent) (k : Bytes32) :
    (coalesce evs).any (fun pr => decide (pr.1 = k)) = evs.any (fun e => decide (e.key = k)) := by
  induction evs with
  | nil => rfl
  | cons e rest ih =>
    simp only [coalesce]
    by_cases h : (coalesce rest).any (fun pr => decide (pr.1 = e.key)) = true
    · rw [if_pos h, List.any_cons]
      by_cases hk : e.key = k
      · subst hk
        rw [ih] at h
        simp [ih, h]
      · simp [ih, hk]
    · rw [if_neg h, List.any_cons, List.any_cons, ih]

/-- A key has a last event exactly when some event carries it. -/
theorem lastEventFor_isSome (evs : List JournalEvent) (k : Bytes32) :
    (lastEventFor evs k).isSome = evs.any (fun e => decide (e.key = k)) := by
  induction evs with
  | nil => rfl
  | cons e rest ih =>
    simp only [lastEventFor, List.any_cons]
    cases h : lastEventFor rest k with
    | some e1 => rw [h] at ih; simp [← ih]
    | none =>
      rw [h] at ih
      by_cases hk : e.key = k <;> simp [hk, ← ih]

/-- Flushing the coalesced events over the map model realises last-write-wins:
at every key, the result is the last event's value (or removal), and keys
without events are untouched. -/
theorem applyEntriesPure_coalesce (evs : List JournalEvent) (db : MapDB) (k : Bytes32) :
    applyEntriesPure (coalesce evs) db k =
      match lastEventFor evs k with
      | some e => e.value
      | none => db k := by
  induction evs generalizing db with
  | nil => rfl
  | cons e rest ih =>
    simp only [coalesce, lastEventFor]
    by_cases h : (coalesce rest).any (fun pr => decide (pr.1 = e.key)) = true
    · rw [if_pos h]
      have hsome : (lastEventFor rest e.key).isSome = true := by
        rw [lastEventFor_isSome, ← coalesce_any]
        exact h
      cases hr : lastEventFor rest k with
      | some e1 => rw [ih, hr]
      | none =>
        rw [ih, hr]
        have hk : e.key ≠ k := by
          intro hkk
          rw [hkk, hr] at hsome
          simp at hsome
        rw [if_neg hk]
    · rw [if_neg h, applyEntriesPure_cons, ih]
      cases hr : lastEventFor rest k with
      | some e1 => rfl
      | none =>
        by_cases hk : e.key = k
        · subst hk
          simp [JournalEvent.key]
        · rw [if_neg hk, if_neg (fun hkk => hk hkk.symm)]

/-- Claim C1: after any sequence of update/remove events for a key (journal
non-empty, nothing yet committed), a successful commit leaves the trie's
entry for that key equal to the last event for the key — its value and flags
for a `Changed` event, absent for a `Removed` event — duplicate events being
coalesced last-write-wins before flushing. -/
theorem commit_last_write_wins (s : JournaledTrie MapDB) (k : Bytes32) (ev : JournalEvent)
    (hc : s.committed = 0) (hl : lastEventFor s.journal k = some ev) :
    ∃ s1 rt lgs, s.commit mapTrie = some (s1, .ok (rt, lgs)) ∧ s1.storage k = ev.value := by
  have hne : s.journal ≠ [] := by
    intro hnil
    rw [hnil] at hl
    cases hl
  have hlen : ¬ s.journal.length ≤ s.committed := by
    rw [hc, Nat.le_zero, List.length_eq_zero]
    exact hne
  unfold JournaledTrie.commit
  rw [if_neg hlen, hc, List.drop_zero, applyEntries_mapTrie]
  refine ⟨_, _, _, rfl, ?_⟩
  show applyEntriesPure (coalesce s.journal) s.storage k = ev.value
  rw [applyEntriesPure_coalesce, hl]

/-- Witness for `commit_last_write_wins`: two updates to the same key commit
to the second value. -/
theorem commit_last_write_wins_witness :
    ∃ s1 rt lgs, twiceWritten.commit mapTrie = some (s1, .ok (rt, lgs)) ∧
      s1.storage zero32 = some ([two32], 2) :=
  commit_last_write_wins twiceWritten zero32
    (.itemChanged zero32 [two32] 2 (some 0)) rfl (by decide)

/-- Claim C7: `commit` panics exactly when nothing is uncommitted
(`journal.len() ≤ committed`); otherwise a trie error raised during the
flush is surfaced from `commit` unchanged (the overlay keeping its partially
flushed storage), and on success `commit` returns the recomputed root
together with the drained logs. -/
theorem commit_outcomes (TS : TrieStorage DB) (s : JournaledTrie DB) :
    (s.commit TS = none ↔ s.journal.length ≤ s.committed) ∧
    (∀ db1 c, s.committed < s.journal.length →
      applyEntries TS (coalesce (s.journal.drop s.committed)) s.storage = (db1, some c) →
      s.commit TS = some ({ s with storage := db1 }, .error c)) ∧
    (∀ db1, s.committed < s.journal.length →
      applyEntries TS (coalesce (s.journal.drop s.committed)) s.storage = (db1, none) →
      s.commit TS = some
        ({ storage := db1
           state := fun _ => none
           logs := []
           journal := []
           root := TS.compute_root db1
           committed := 0 },
          .ok (TS.compute_root db1, s.logs))) := by
  refine ⟨?_, ?_, ?_⟩
  · unfold JournaledTrie.commit
    by_cases h : s.journal.length ≤ s.committed
    · simp [h]
    · rw [if_neg h]
      cases hm : applyEntries TS (coalesce (s.journal.drop s.committed)) s.storage with
      | mk db1 oc => cases oc <;> simp [h]
  · intro db1 c hlt hm
    unfold JournaledTrie.commit
    rw [if_neg (Nat.not_le.mpr hlt), hm]
  · intro db1 hlt hm
    unfold JournaledTrie.commit
    rw [if_neg (Nat.not_le.mpr hlt), hm]

/-- Witness for `commit_outcomes`: over the always-failing trie, commit
surfaces the trie's error code unchanged. -/
theorem commit_outcomes_witness :
    failOverlay.commit failTrie = some ({ failOverlay with storage := () }, .error 7) :=
  (commit_outcomes failTrie failOverlay).2.1 () 7 (by decide) rfl

/-- In every reachable state the committed watermark is zero: it starts at
zero and commit resets it to zero; no other operation assigns it. -/
theorem Reachable.committed_eq_zero {TS : TrieStorage DB} {p : PoseidonHash}
    {s : JournaledTrie DB} (h : Reachable TS p s) : s.committed = 0 := by
  induction h with
  | new db => rfl
  | update key value flags _ ih => exact ih
  | remove key _ ih => exact ih
  | store address slot value _ ih => exact ih
  | emit_log address topics data _ ih => exact ih
  | commit _ hc ih =>
    unfold JournaledTrie.commit at hc
    split at hc
    · cases hc
    · split at hc
      · cases hc
        exact ih
      · cases hc
        rfl
  | rollback cp _ hr ih =>
    unfold JournaledTrie.rollback at hr
    split at hr
    · cases hr
    · cases hr
      exact ih

/-- Claim C9: in every reachable overlay state the committed watermark
equals 0, so rollback's guard (checkpoint journal length below the
watermark) can never fire — rollback never panics — and commit's panic
precondition reduces to the journal being empty. -/
theorem committed_watermark_zero {TS : TrieStorage DB} {p : PoseidonHash}
    {s : JournaledTrie DB} (h : Reachable TS p s) :
    s.committed = 0 ∧ (∀ cp, (s.rollback cp).isSome) ∧
    (s.commit TS = none ↔ s.journal = []) := by
  have hz := h.committed_eq_zero
  refine ⟨hz, ?_, ?_⟩
  · intro cp
    unfold JournaledTrie.rollback
    rw [hz]
    simp
  · unfold JournaledTrie.commit
    rw [hz]
    by_cases hj : s.journal = []
    · simp [hj]
    · have hlen : ¬ s.journal.length ≤ 0 := by
        rw [Nat.le_zero, List.length_eq_zero]
        exact hj
      rw [if_neg hlen]
      cases hm : applyEntries TS (coalesce (s.journal.drop 0)) s.storage with
      | mk db1 oc => cases oc <;> simp [hj]

/-- Witness for `committed_watermark_zero` at the freshly constructed
overlay. -/
theorem committed_watermark_zero_witness :
    emptyOverlay.committed = 0 ∧ ((emptyOverlay.rollback (0, 0)).isSome) ∧
    (emptyOverlay.commit mapTrie = none ↔ emptyOverlay.journal = []) :=
  ⟨(committed_watermark_zero (@Reachable.new MapDB mapTrie poseidonZero emptyDB)).1,
   (committed_watermark_zero (@Reachable.new MapDB mapTrie poseidonZero emptyDB)).2.1 (0, 0),
   (committed_watermark_zero (@Reachable.new MapDB mapTrie poseidonZero emptyDB)).2.2⟩

/-- The little-endian value of a byte string is bounded by `256 ^ length`. -/
theorem leValList_lt (l : List Byte) : leValList l < 256 ^ l.length := by
  induction l with
  | nil => simp [leValList]
  | cons b rest ih =>
    have hb := b.isLt
    simp only [leValList, List.length_cons, pow_succ]
    omega

/-- Zero padding on the high end does not change the little-endian value. -/
theorem leValList_append_zeros (l : List Byte) (m : Nat) :
    leValList (l ++ List.replicate m (0 : Byte)) = leValList l := by
  induction l with
  | nil =>
    simp only [List.nil_append]
    induction m with
    | zero => rfl
    | succ m2 ihm => simp [List.replicate_succ, leValList, ihm]
  | cons b rest ih => simp [leValList, ih]

/-- `Fr::from_bytes` succeeds on canonical values, yielding the value. -/
theorem frFromBytes_eq_of_lt (l : List Byte) (h : leValList l < bn254Modulus) :
    frFromBytes l = some ((leValList l : Fr)) := by
  unfold frFromBytes
  rw [if_pos h]

/-- A 32-byte buffer whose high 16 bytes are zero is a canonical field
element. -/
theorem half_buffer_lt (l : List Byte) (h : l.length = 16) :
    leValList (l ++ List.replicate 16 (0 : Byte)) < bn254Modulus := by
  rw [leValList_append_zeros]
  have hlt := leValList_lt l
  rw [h] at hlt
  exact lt_trans hlt (by decide)

/-- A 32-byte buffer holding an address in its low 20 bytes is a canonical
field element. -/
theorem address_buffer_lt (l : List Byte) (h : l.length = 20) :
    leValList (l ++ List.replicate 12 (0 : Byte)) < bn254Modulus := by
  rw [leValList_append_zeros]
  have hlt := leValList_lt l
  rw [h] at hlt
  exact lt_trans hlt (by decide)

/-- Claim C5: for every 20-byte address and 32-byte slot, the derived
storage key is the 32-byte little-endian encoding of
`Poseidon(A*, S*; domain 0)`, with `S*` the Poseidon hash (domain 0) of the
two scalars read from the slot's halves placed low in zeroed buffers, and
`A*` the scalar read from the address placed low in a zeroed buffer —
stated as the source derivation agreeing with the spec's, for every
Poseidon instantiation. -/
theorem storage_key_matches_spec (p : PoseidonHash) (A : Address20) (S : Bytes32) :
    storage_key p A S = spec_storage_key p A S := by
  unfold storage_key spec_storage_key compress_value spec_slot_compression
  have h1 : (S.toList.take 16).length = 16 := by
    simp [List.length_take, Mathlib.Vector.toList_length]
  have h2 : (S.toList.drop 16).length = 16 := by
    simp [List.length_drop, Mathlib.Vector.toList_length]
  have h3 : A.toList.length = 20 := Mathlib.Vector.toList_length A
  rw [frFromBytes_eq_of_lt _ (half_buffer_lt _ h1),
    frFromBytes_eq_of_lt _ (half_buffer_lt _ h2),
    frFromBytes_eq_of_lt _ (address_buffer_lt _ h3)]
  simp [DOMAIN]

end FluentJournal
